import Mathlib

/-!
# KombuchaELN — timepoint/measurement workflow core, shallowly embedded

This file embeds the core state of the KombuchaELN application (entities
`Experiment`, `Batch`, `Timepoint`, `Measurement` and the operations of
`src/experiments.py` and `src/timepoints.py`) as pure Lean functions over an
explicit entity store, and proves the stated properties of the workflow
state machine: experiment-status derivation, batch action logging,
timepoint sequencing, and measurement upserts.

The SQLAlchemy session is modelled as explicit state passing over a `Store`
holding the entity lists in insertion order; SQL `filter_by(...).first()`
becomes `List.find?`, `filter_by(...).all()` becomes `List.filter`, and
`order_by(order).first()` becomes a fold computing the earliest element of
minimal `order`.  Timestamps are abstract `Nat` ticks; numeric measurement
payloads are `Int` (no arithmetic is ever performed on them).
-/

set_option autoImplicit false

namespace KombuchaELN

/-- Experiment entity (`src/database.py`, class `Experiment`): id, title,
owner, creation time, optional external id, status string, optional notes
and the nullable current-timepoint pointer. -/
structure Experiment where
  id : Nat
  title : String
  user_id : String
  created_at : Nat
  elab_id : Option Nat := none
  status : String := "Planning"
  notes : Option String := none
  current_timepoint_id : Option Nat := none
  deriving DecidableEq, Repr

/-- Modelled from the spec: the `Batch` entity.  The ORM class in
`src/database.py` declares only id, parent experiment, name and the recipe
parameters; the workflow columns (`status`, the nine `*_time` action
timestamps and the result fields) that `src/experiments.py` reads and
writes — `batch.status`, `setattr(batch, f"{action_type}_time", ...)`
behind `hasattr` guards — are missing from that declaration, so they are
taken from the spec's data model (§3 Batch: status, workflow timestamps,
workflow result fields, notes).  With the full field set present, the
`hasattr(batch, f"{action_type}_time")` guard passes for exactly the nine
action types of the status mapping. -/
structure Batch where
  id : Nat
  experiment_id : Nat
  name : String
  tea_type : Option String := none
  tea_concentration : Option Int := none
  water_amount : Option Int := none
  sugar_type : Option String := none
  sugar_concentration : Option Int := none
  inoculum_concentration : Option Int := none
  temperature : Option Int := none
  status : String := "Setup"
  preparation_time : Option Nat := none
  incubation_start_time : Option Nat := none
  incubation_end_time : Option Nat := none
  sample_split_time : Option Nat := none
  micro_plating_time : Option Nat := none
  hplc_prep_time : Option Nat := none
  ph_measurement_time : Option Nat := none
  scoby_wet_weight_time : Option Nat := none
  scoby_dry_weight_time : Option Nat := none
  micro_results : Option String := none
  hplc_results : Option String := none
  ph_value : Option Int := none
  scoby_wet_weight : Option Int := none
  scoby_dry_weight : Option Int := none
  temperature_logger_ids : Option String := none
  notes : Option String := none
  deriving DecidableEq, Repr

/-- Timepoint entity (`src/database.py`, class `Timepoint`). -/
structure Timepoint where
  id : Nat
  experiment_id : Nat
  name : String
  hours : Int
  description : Option String := none
  order : Int
  deriving DecidableEq, Repr

/-- Measurement entity (`src/database.py`, class `Measurement`): one row per
(batch, timepoint) pair, independently nullable fields plus the
`completed` flag (non-nullable, default `False`). -/
structure Measurement where
  id : Nat
  batch_id : Nat
  timepoint_id : Nat
  ph_value : Option Int := none
  ph_sample_time : Option Nat := none
  micro_results : Option String := none
  micro_sample_time : Option Nat := none
  hplc_results : Option String := none
  hplc_sample_time : Option Nat := none
  scoby_wet_weight : Option Int := none
  scoby_dry_weight : Option Int := none
  notes : Option String := none
  completed : Bool := false
  deriving DecidableEq, Repr

/-- The entity store: the database tables in insertion order, plus the
autoincrement counters for the ids handed out on insert. -/
structure Store where
  experiments : List Experiment := []
  batches : List Batch := []
  timepoints : List Timepoint := []
  measurements : List Measurement := []
  nextTimepointId : Nat := 1
  nextMeasurementId : Nat := 1
  deriving DecidableEq, Repr

/-- Query `session.query(Experiment).filter_by(id=...).first()`. -/
def findExperiment (s : Store) (eid : Nat) : Option Experiment :=
  s.experiments.find? (fun e => e.id == eid)

/-- Query `session.query(Batch).filter_by(id=...).first()`. -/
def findBatch (s : Store) (bid : Nat) : Option Batch :=
  s.batches.find? (fun b => b.id == bid)

/-- Query `session.query(Timepoint).filter_by(id=...).first()`. -/
def findTimepoint (s : Store) (tid : Nat) : Option Timepoint :=
  s.timepoints.find? (fun t => t.id == tid)

/-- Query `session.query(Batch).filter_by(experiment_id=...).all()`. -/
def experimentBatches (s : Store) (eid : Nat) : List Batch :=
  s.batches.filter (fun b => b.experiment_id == eid)

/-- Query `session.query(Timepoint).filter_by(experiment_id=...).all()`. -/
def experimentTimepoints (s : Store) (eid : Nat) : List Timepoint :=
  s.timepoints.filter (fun t => t.experiment_id == eid)

/-- Query `session.query(Measurement).filter_by(batch_id=..., timepoint_id=...).first()`. -/
def findMeasurement (s : Store) (bid tid : Nat) : Option Measurement :=
  s.measurements.find? (fun m => m.batch_id == bid && m.timepoint_id == tid)

/-- Mutate the first element satisfying `p` (the ORM pattern of mutating the
single object returned by `.first()` and committing). -/
def updateFirst {α : Type} (p : α → Bool) (f : α → α) : List α → List α
  | [] => []
  | x :: xs => if p x then f x :: xs else x :: updateFirst p f xs

/-- Mutate the experiment row found by `filter_by(id=eid).first()`. -/
def updateExperiment (s : Store) (eid : Nat) (f : Experiment → Experiment) : Store :=
  { s with experiments := updateFirst (fun e => e.id == eid) f s.experiments }

/-- Mutate the batch row found by `filter_by(id=bid).first()`. -/
def updateBatch (s : Store) (bid : Nat) (f : Batch → Batch) : Store :=
  { s with batches := updateFirst (fun b => b.id == bid) f s.batches }

/-- The experiment-status rule list of `update_experiment_status_from_batches`
(`src/experiments.py:263-273`) as a pure function of the batches' status
strings, in the source's priority order. -/
def deriveExperimentStatus (statuses : List String) : String :=
  if statuses.isEmpty then "Planning"
  else if statuses.all (fun st => st == "Completed") then "Completed"
  else if statuses.any (fun st => st == "Setup") then "Planning"
  else if statuses.any (fun st => st == "Incubating" || st == "Sampling") then "Running"
  else "Analysis"

/-- Model of `update_experiment_status_from_batches(experiment_id)`
(`src/experiments.py:245-282`): look up the experiment (missing → `False`,
store unchanged), collect its batches, and set the experiment's status by
the if/elif chain over the batch statuses. -/
def update_experiment_status_from_batches (s : Store) (eid : Nat) : Bool × Store :=
  match findExperiment s eid with
  | none => (false, s)
  | some _ =>
    let batches := experimentBatches s eid
    let newStatus :=
      if batches.isEmpty then "Planning"
      else if batches.all (fun b => b.status == "Completed") then "Completed"
      else if batches.any (fun b => b.status == "Setup") then "Planning"
      else if batches.any (fun b => b.status == "Incubating" || b.status == "Sampling") then "Running"
      else "Analysis"
    (true, updateExperiment s eid (fun e => { e with status := newStatus }))

/-- The `status_mapping` dictionary of `log_batch_action`
(`src/experiments.py:217-227`). -/
def statusMapping (action_type : String) : Option String :=
  if action_type == "preparation" then some "Prepared"
  else if action_type == "incubation_start" then some "Incubating"
  else if action_type == "incubation_end" then some "Sampling"
  else if action_type == "sample_split" then some "Analysis Pending"
  else if action_type == "micro_plating" then some "Micro Plated"
  else if action_type == "hplc_prep" then some "HPLC Prepped"
  else if action_type == "ph_measurement" then some "pH Measured"
  else if action_type == "scoby_wet_weight" then some "SCOBY Weighed"
  else if action_type == "scoby_dry_weight" then some "Completed"
  else none

/-- Model of `if hasattr(batch, f"{action_type}_time"): setattr(batch,
f"{action_type}_time", timestamp)` (`src/experiments.py:208-209`): with the
batch's field set, the guard passes exactly for the nine `<action>_time`
columns; any other action string leaves the batch unchanged.  Note the
write is unconditional — it does not test whether the field is already
set. -/
def setActionTime (b : Batch) (action_type : String) (ts : Nat) : Batch :=
  if action_type == "preparation" then { b with preparation_time := some ts }
  else if action_type == "incubation_start" then { b with incubation_start_time := some ts }
  else if action_type == "incubation_end" then { b with incubation_end_time := some ts }
  else if action_type == "sample_split" then { b with sample_split_time := some ts }
  else if action_type == "micro_plating" then { b with micro_plating_time := some ts }
  else if action_type == "hplc_prep" then { b with hplc_prep_time := some ts }
  else if action_type == "ph_measurement" then { b with ph_measurement_time := some ts }
  else if action_type == "scoby_wet_weight" then { b with scoby_wet_weight_time := some ts }
  else if action_type == "scoby_dry_weight" then { b with scoby_dry_weight_time := some ts }
  else b

/-- Read back the `<action>_time` field named by the action string. -/
def actionTime (b : Batch) (action_type : String) : Option Nat :=
  if action_type == "preparation" then b.preparation_time
  else if action_type == "incubation_start" then b.incubation_start_time
  else if action_type == "incubation_end" then b.incubation_end_time
  else if action_type == "sample_split" then b.sample_split_time
  else if action_type == "micro_plating" then b.micro_plating_time
  else if action_type == "hplc_prep" then b.hplc_prep_time
  else if action_type == "ph_measurement" then b.ph_measurement_time
  else if action_type == "scoby_wet_weight" then b.scoby_wet_weight_time
  else if action_type == "scoby_dry_weight" then b.scoby_dry_weight_time
  else none

/-- The action strings whose `<action>_time` column exists on the batch. -/
def hasTimeField (action_type : String) : Bool :=
  action_type == "preparation" || action_type == "incubation_start" ||
  action_type == "incubation_end" || action_type == "sample_split" ||
  action_type == "micro_plating" || action_type == "hplc_prep" ||
  action_type == "ph_measurement" || action_type == "scoby_wet_weight" ||
  action_type == "scoby_dry_weight"

/-- The `**values` keyword arguments of `log_batch_action` / `update_batch`
as a typed field mask over the batch data columns that call sites pass
(`ph_value`, `scoby_wet_weight`, result texts, logger ids, notes): `none`
means the key is absent from the call, `some v` means the key is present
with (nullable) value `v`, exactly the `hasattr`/`setattr` loop of
`src/experiments.py:212-214`. -/
structure BatchPatch where
  ph_value : Option (Option Int) := none
  scoby_wet_weight : Option (Option Int) := none
  scoby_dry_weight : Option (Option Int) := none
  micro_results : Option (Option String) := none
  hplc_results : Option (Option String) := none
  temperature_logger_ids : Option (Option String) := none
  notes : Option (Option String) := none
  deriving DecidableEq, Repr

/-- Apply the keyword-argument field mask to a batch: present keys are
written (including explicit nulls), absent keys leave the field as-is. -/
def applyBatchPatch (b : Batch) (p : BatchPatch) : Batch :=
  { b with
    ph_value := p.ph_value.getD b.ph_value
    scoby_wet_weight := p.scoby_wet_weight.getD b.scoby_wet_weight
    scoby_dry_weight := p.scoby_dry_weight.getD b.scoby_dry_weight
    micro_results := p.micro_results.getD b.micro_results
    hplc_results := p.hplc_results.getD b.hplc_results
    temperature_logger_ids := p.temperature_logger_ids.getD b.temperature_logger_ids
    notes := p.notes.getD b.notes }

/-- The mutation `log_batch_action` performs on the batch row
(`src/experiments.py:207-230`): stamp the `<action>_time` field with the
supplied timestamp, apply the extra keyword values, then set the status to
the mapped value when the action is in the mapping. -/
def loggedBatch (b : Batch) (action_type : String) (timestamp : Nat)
    (values : BatchPatch) : Batch :=
  let b1 := setActionTime b action_type timestamp
  let b2 := applyBatchPatch b1 values
  match statusMapping action_type with
  | some st => { b2 with status := st }
  | none => b2

/-- Model of `log_batch_action(batch_id, action_type, timestamp, **values)`
(`src/experiments.py:185-243`): look up the batch (missing → `False`),
apply the row mutation `loggedBatch`, commit, then recompute the parent
experiment's status from its batches. -/
def log_batch_action (s : Store) (bid : Nat) (action_type : String)
    (timestamp : Nat) (values : BatchPatch) : Bool × Store :=
  match findBatch s bid with
  | none => (false, s)
  | some batch =>
    let batch := loggedBatch batch action_type timestamp values
    let s1 := updateBatch s bid (fun _ => batch)
    (true, (update_experiment_status_from_batches s1 batch.experiment_id).2)

/-- Model of `order_by(Timepoint.order).first()` over an already-filtered list: the
earliest element of minimal `order` (SQL sorting is stable over the stored
row order, so ties keep the earlier row). -/
def firstByOrder : List Timepoint → Option Timepoint
  | [] => none
  | t :: ts =>
    match firstByOrder ts with
    | none => some t
    | some m => if m.order < t.order then some m else some t

/-- Model of `set_current_timepoint(experiment_id, timepoint_id)`
(`src/timepoints.py:137-163`): unconditional pointer update, no membership
check. -/
def set_current_timepoint (s : Store) (eid tid : Nat) : Bool × Store :=
  match findExperiment s eid with
  | none => (false, s)
  | some _ => (true, updateExperiment s eid (fun e => { e with current_timepoint_id := some tid }))

/-- Model of `advance_to_next_timepoint(experiment_id)` (`src/timepoints.py:165-207`):
look up the experiment and its current timepoint; find the timepoint of the
same experiment with the smallest `order` strictly above the current one;
set it as current and return its id, or return `none` leaving the store
unchanged. -/
def advance_to_next_timepoint (s : Store) (eid : Nat) : Option Nat × Store :=
  match findExperiment s eid with
  | none => (none, s)
  | some e =>
    match e.current_timepoint_id with
    | none => (none, s)
    | some ctid =>
      match findTimepoint s ctid with
      | none => (none, s)
      | some ct =>
        match firstByOrder (s.timepoints.filter
            (fun t => t.experiment_id == eid && ct.order < t.order)) with
        | none => (none, s)
        | some nt =>
          (some nt.id, updateExperiment s eid (fun e2 => { e2 with current_timepoint_id := some nt.id }))

/-- Model of `is_final_timepoint(timepoint_id)` (`src/timepoints.py:209-234`): false
for a missing timepoint; otherwise true iff no timepoint of the same
experiment has a strictly greater `order`. -/
def is_final_timepoint (s : Store) (tid : Nat) : Bool :=
  match findTimepoint s tid with
  | none => false
  | some tp =>
    (s.timepoints.find? (fun t => t.experiment_id == tp.experiment_id && tp.order < t.order)).isNone

/-- The `**values` keyword arguments of `record_measurement` as a typed
field mask over the measurement columns: `none` means the key is absent
from the call, `some v` means the key is present with (nullable) value `v`
— the `hasattr`/`setattr` loop of `src/timepoints.py:258-260` on the
update path, and the `Measurement(batch_id=..., timepoint_id=...,
**values)` constructor on the create path. -/
structure MPatch where
  ph_value : Option (Option Int) := none
  ph_sample_time : Option (Option Nat) := none
  micro_results : Option (Option String) := none
  micro_sample_time : Option (Option Nat) := none
  hplc_results : Option (Option String) := none
  hplc_sample_time : Option (Option Nat) := none
  scoby_wet_weight : Option (Option Int) := none
  scoby_dry_weight : Option (Option Int) := none
  notes : Option (Option String) := none
  completed : Option Bool := none
  deriving DecidableEq, Repr

/-- Apply the keyword-argument field mask to a measurement row: present
keys are written (explicit `null` clears the field), absent keys leave the
field untouched. -/
def applyMPatch (m : Measurement) (p : MPatch) : Measurement :=
  { m with
    ph_value := p.ph_value.getD m.ph_value
    ph_sample_time := p.ph_sample_time.getD m.ph_sample_time
    micro_results := p.micro_results.getD m.micro_results
    micro_sample_time := p.micro_sample_time.getD m.micro_sample_time
    hplc_results := p.hplc_results.getD m.hplc_results
    hplc_sample_time := p.hplc_sample_time.getD m.hplc_sample_time
    scoby_wet_weight := p.scoby_wet_weight.getD m.scoby_wet_weight
    scoby_dry_weight := p.scoby_dry_weight.getD m.scoby_dry_weight
    notes := p.notes.getD m.notes
    completed := p.completed.getD m.completed }

/-- Model of `record_measurement(batch_id, timepoint_id, **values)`
(`src/timepoints.py:236-277`): if a row exists for the pair, merge the
supplied fields into it; otherwise create a new row seeded from the column
defaults plus the supplied fields. -/
def record_measurement (s : Store) (bid tid : Nat) (values : MPatch) : Bool × Store :=
  match findMeasurement s bid tid with
  | some _ =>
    let ms := updateFirst (fun m => m.batch_id == bid && m.timepoint_id == tid)
      (fun m => applyMPatch m values) s.measurements
    (true, { s with measurements := ms })
  | none =>
    let m := applyMPatch { id := s.nextMeasurementId, batch_id := bid, timepoint_id := tid } values
    (true, { s with
      measurements := s.measurements ++ [m]
      nextMeasurementId := s.nextMeasurementId + 1 })

/-- Model of `is_timepoint_completed(timepoint_id)` (`src/timepoints.py:373-406`):
false for a missing timepoint or an experiment with no batches; otherwise
true iff every batch of the experiment has a measurement row for this
timepoint whose `completed` flag is set. -/
def is_timepoint_completed (s : Store) (tid : Nat) : Bool :=
  match findTimepoint s tid with
  | none => false
  | some tp =>
    let batches := experimentBatches s tp.experiment_id
    if batches.isEmpty then false
    else
      batches.all (fun b =>
        match findMeasurement s b.id tid with
        | none => false
        | some m => m.completed)

/-- Outcome of `delete_timepoint`, distinguishing the two guard failures
(the two distinct `ui.notify` error messages of `src/timepoints.py:487,493`)
from success and from a missing row. -/
inductive DeleteResult where
  | deleted
  | inUse
  | hasMeasurements
  | notFound
  deriving DecidableEq, Repr

/-- Model of `delete_timepoint(timepoint_id)` (`src/timepoints.py:472-511`): refuse
while the timepoint is any experiment's current timepoint, then refuse
while any measurement references it (store unchanged in both cases);
otherwise delete the row (ids are unique, so deleting the found object is
removing the rows of that id), with no re-sequencing of the remaining
`order` values. -/
def delete_timepoint (s : Store) (tid : Nat) : DeleteResult × Store :=
  if s.experiments.any (fun e => e.current_timepoint_id == some tid) then
    (DeleteResult.inUse, s)
  else if s.measurements.any (fun m => m.timepoint_id == tid) then
    (DeleteResult.hasMeasurements, s)
  else
    match findTimepoint s tid with
    | some _ =>
      (DeleteResult.deleted, { s with timepoints := s.timepoints.filter (fun t => !(t.id == tid)) })
    | none => (DeleteResult.notFound, s)

/-- One entry of the `default_timepoints` literal of
`create_default_timepoints` (`src/timepoints.py:20-25`). -/
def defaultTimepoint (tpid eid : Nat) (name : String) (hours : Int)
    (descr : String) (ord : Int) : Timepoint :=
  { id := tpid, experiment_id := eid, name := name, hours := hours,
    description := some descr, order := ord }

/-- Model of `create_default_timepoints(experiment_id)` (`src/timepoints.py:10-60`):
report success without touching the store when the experiment already has
timepoints; otherwise insert the four default timepoints t0/t4/t7/t11 and,
when the experiment row exists, point its current timepoint at the first
row of this experiment named "t0". -/
def create_default_timepoints (s : Store) (eid : Nat) : Bool × Store :=
  if !(experimentTimepoints s eid).isEmpty then (true, s)
  else
    let tps :=
      [ defaultTimepoint s.nextTimepointId eid "t0" 0 "Initial measurements" 1,
        defaultTimepoint (s.nextTimepointId + 1) eid "t4" 4 "4-hour measurements" 2,
        defaultTimepoint (s.nextTimepointId + 2) eid "t7" 7 "7-hour measurements" 3,
        defaultTimepoint (s.nextTimepointId + 3) eid "t11" 11 "Final measurements" 4 ]
    let s1 := { s with timepoints := s.timepoints ++ tps, nextTimepointId := s.nextTimepointId + 4 }
    match findExperiment s1 eid with
    | none => (true, s1)
    | some _ =>
      match s1.timepoints.find? (fun t => t.experiment_id == eid && t.name == "t0") with
      | none => (true, s1)
      | some t0 =>
        (true, updateExperiment s1 eid (fun e => { e with current_timepoint_id := some t0.id }))

/-- Model of `sa.func.max(Timepoint.order)` over an already-filtered list: `none`
on the empty list, otherwise the maximal `order`. -/
def maxOrder : List Timepoint → Option Int
  | [] => none
  | t :: ts =>
    match maxOrder ts with
    | none => some t.order
    | some m => if m < t.order then some t.order else some m

/-- Model of `create_custom_timepoint(experiment_id, name, hours, description,
order=None)` (`src/timepoints.py:62-101`): when `order` is omitted, use
`max(existing order) + 1` (or 1 when the experiment has none); insert the
one new row and return its id.  Nothing else is read or written. -/
def create_custom_timepoint (s : Store) (eid : Nat) (name : String) (hours : Int)
    (descr : Option String) (ord? : Option Int) : Option Nat × Store :=
  let ord :=
    match ord? with
    | some o => o
    | none =>
      match maxOrder (experimentTimepoints s eid) with
      | none => 1
      | some m => m + 1
  let tp : Timepoint :=
    { id := s.nextTimepointId, experiment_id := eid, name := name, hours := hours,
      description := descr, order := ord }
  (some tp.id, { s with timepoints := s.timepoints ++ [tp], nextTimepointId := s.nextTimepointId + 1 })

/-- Concrete experiment row for evaluating the theorems: id 1, current
timepoint t0. -/
def demoExperiment : Experiment :=
  { id := 1, title := "E", user_id := "u", created_at := 0,
    status := "Planning", current_timepoint_id := some 1 }

/-- Concrete batch row: already prepared, preparation timestamp 5. -/
def demoBatch : Batch :=
  { id := 1, experiment_id := 1, name := "B1", status := "Prepared",
    preparation_time := some 5 }

/-- Concrete timepoint t0 (order 1) of experiment 1. -/
def demoT0 : Timepoint :=
  { id := 1, experiment_id := 1, name := "t0", hours := 0, order := 1 }

/-- Concrete timepoint t4 (order 2) of experiment 1. -/
def demoT4 : Timepoint :=
  { id := 2, experiment_id := 1, name := "t4", hours := 4, order := 2 }

/-- Concrete store: one experiment sitting at t0 with one prepared batch
and timepoints t0 < t4, no measurements yet. -/
def demoStore : Store :=
  { experiments := [demoExperiment]
    batches := [demoBatch]
    timepoints := [demoT0, demoT4]
    measurements := []
    nextTimepointId := 3
    nextMeasurementId := 1 }

/-- Concrete store whose experiment has no timepoints yet (fresh
experiment, before the workflow is started). -/
def demoStoreNoTimepoints : Store :=
  { experiments := [{ demoExperiment with current_timepoint_id := none }]
    batches := [demoBatch]
    timepoints := []
    measurements := []
    nextTimepointId := 3
    nextMeasurementId := 1 }

/-- Concrete store with a completed measurement row for batch 1 at
timepoint t0. -/
def demoStoreMeasured : Store :=
  { demoStore with
    measurements := [{ id := 1, batch_id := 1, timepoint_id := 1, completed := true }]
    nextMeasurementId := 2 }

/-!
## Generic list lemmas

Lemmas about `List.find?`, `updateFirst`, `firstByOrder` and `maxOrder`
shared by the claim theorems.
-/

theorem updateFirst_eq_of_find?_eq_none {α : Type} (p : α → Bool) (f : α → α)
    (l : List α) (h : l.find? p = none) : updateFirst p f l = l := by
  induction l with
  | nil => rfl
  | cons x xs ih =>
    by_cases hpx : p x
    · simp [List.find?_cons, hpx] at h
    · simp [updateFirst, hpx, ih (by simpa [List.find?_cons, hpx] using h)]

theorem find?_updateFirst_eq {α : Type} (p : α → Bool) (f : α → α) (l : List α)
    (x : α) (h : l.find? p = some x) (hf : p (f x) = true) :
    (updateFirst p f l).find? p = some (f x) := by
  induction l with
  | nil => simp [List.find?] at h
  | cons y ys ih =>
    by_cases hpy : p y
    · have hxy : y = x := by simpa [List.find?_cons, hpy] using h
      subst hxy
      simp [updateFirst, hpy, List.find?_cons, hf]
    · have h' : ys.find? p = some x := by simpa [List.find?_cons, hpy] using h
      simp [updateFirst, hpy, List.find?_cons, ih h']

theorem updateFirst_append_of_find?_eq_none {α : Type} (p : α → Bool) (f : α → α)
    (l₁ l₂ : List α) (h : l₁.find? p = none) :
    updateFirst p f (l₁ ++ l₂) = l₁ ++ updateFirst p f l₂ := by
  induction l₁ with
  | nil => rfl
  | cons x xs ih =>
    by_cases hpx : p x
    · simp [List.find?_cons, hpx] at h
    · simp [updateFirst, hpx, ih (by simpa [List.find?_cons, hpx] using h)]

theorem find?_append_of_find?_eq_none {α : Type} (p : α → Bool) (l₁ l₂ : List α)
    (h : l₁.find? p = none) : (l₁ ++ l₂).find? p = l₂.find? p := by
  induction l₁ with
  | nil => rfl
  | cons x xs ih =>
    by_cases hpx : p x
    · simp [List.find?_cons, hpx] at h
    · simp [List.find?_cons, hpx, ih (by simpa [List.find?_cons, hpx] using h)]

theorem find?_append_of_find?_eq_some {α : Type} (p : α → Bool) (l₁ l₂ : List α)
    (x : α) (h : l₁.find? p = some x) : (l₁ ++ l₂).find? p = some x := by
  induction l₁ with
  | nil => simp [List.find?] at h
  | cons y ys ih =>
    by_cases hpy : p y
    · have hxy : y = x := by simpa [List.find?_cons, hpy] using h
      subst hxy
      simp [List.find?_cons, hpy]
    · have h' : ys.find? p = some x := by simpa [List.find?_cons, hpy] using h
      simp [List.find?_cons, hpy, ih h']

theorem find?_eq_of_mem_of_unique {α : Type} (p : α → Bool) (l : List α) (x : α)
    (huniq : ∀ a ∈ l, ∀ b ∈ l, p a = true → p b = true → a = b)
    (hx : x ∈ l) (hpx : p x = true) : l.find? p = some x := by
  induction l with
  | nil => cases hx
  | cons y ys ih =>
    by_cases hpy : p y
    · have hyx : y = x :=
        huniq y (List.mem_cons_self y ys) x hx hpy hpx
      subst hyx
      simp [List.find?_cons, hpy]
    · have hxy : x ∈ ys := by
        rcases List.mem_cons.mp hx with h | h
        · exact absurd (h ▸ hpx) (by simpa using hpy)
        · exact h
      have huniq' : ∀ a ∈ ys, ∀ b ∈ ys, p a = true → p b = true → a = b :=
        fun a ha b hb hpa hpb =>
          huniq a (List.mem_cons_of_mem y ha) b (List.mem_cons_of_mem y hb) hpa hpb
      simp [List.find?_cons, hpy, ih huniq' hxy]

theorem firstByOrder_eq_none_iff (l : List Timepoint) :
    firstByOrder l = none ↔ l = [] := by
  induction l with
  | nil => simp [firstByOrder]
  | cons t ts ih =>
    simp only [firstByOrder]
    constructor
    · intro h
      cases hts : firstByOrder ts with
      | none => rw [hts] at h; exact absurd h (by simp)
      | some m => rw [hts] at h; by_cases hlt : m.order < t.order <;> simp [hlt] at h
    · intro h; cases h

theorem firstByOrder_mem (l : List Timepoint) (x : Timepoint)
    (h : firstByOrder l = some x) : x ∈ l := by
  induction l generalizing x with
  | nil => simp [firstByOrder] at h
  | cons t ts ih =>
    simp only [firstByOrder] at h
    cases hts : firstByOrder ts with
    | none =>
      rw [hts] at h
      have : t = x := by simpa using h
      exact this ▸ List.mem_cons_self t ts
    | some m =>
      rw [hts] at h
      by_cases hlt : m.order < t.order
      · simp only [hlt, if_true] at h
        have : m = x := by simpa using h
        exact List.mem_cons_of_mem t (ih x (this ▸ hts))
      · simp only [hlt, if_false] at h
        have : t = x := by simpa using h
        exact this ▸ List.mem_cons_self t ts

theorem firstByOrder_le (l : List Timepoint) (x : Timepoint)
    (h : firstByOrder l = some x) : ∀ u ∈ l, x.order ≤ u.order := by
  induction l generalizing x with
  | nil => simp [firstByOrder] at h
  | cons t ts ih =>
    intro u hu
    simp only [firstByOrder] at h
    cases hts : firstByOrder ts with
    | none =>
      rw [hts] at h
      have hts' : ts = [] := (firstByOrder_eq_none_iff ts).mp hts
      have htx : t = x := by simpa using h
      subst hts' htx
      rcases List.mem_cons.mp hu with h | h
      · exact h ▸ le_refl _
      · cases h
    | some m =>
      rw [hts] at h
      by_cases hlt : m.order < t.order
      · simp only [hlt, if_true] at h
        have hmx : m = x := by simpa using h
        subst hmx
        rcases List.mem_cons.mp hu with h | h
        · exact h ▸ le_of_lt hlt
        · exact ih m hts u h
      · simp only [hlt, if_false] at h
        have htx : t = x := by simpa using h
        subst htx
        rcases List.mem_cons.mp hu with h | h
        · exact h ▸ le_refl _
        · exact le_trans (not_lt.mp hlt) (ih m hts u h)

theorem exists_max_order (l : List Timepoint) (h : l ≠ []) :
    ∃ t ∈ l, ∀ u ∈ l, u.order ≤ t.order := by
  induction l with
  | nil => exact absurd rfl h
  | cons x xs ih =>
    by_cases hxs : xs = []
    · subst hxs
      refine ⟨x, List.mem_cons_self x [], ?_⟩
      intro u hu
      rcases List.mem_cons.mp hu with h | h
      · exact h ▸ le_refl _
      · cases h
    · obtain ⟨t, ht, hmax⟩ := ih hxs
      rcases le_total t.order x.order with hle | hle
      · refine ⟨x, List.mem_cons_self x xs, ?_⟩
        intro u hu
        rcases List.mem_cons.mp hu with h | h
        · exact h ▸ le_refl _
        · exact le_trans (hmax u h) hle
      · refine ⟨t, List.mem_cons_of_mem x ht, ?_⟩
        intro u hu
        rcases List.mem_cons.mp hu with h | h
        · exact h ▸ hle
        · exact hmax u h

/-!
## Frame and unfolding lemmas for the operations
-/

theorem applyBatchPatch_id (b : Batch) (p : BatchPatch) :
    (applyBatchPatch b p).id = b.id := rfl

theorem applyBatchPatch_experiment_id (b : Batch) (p : BatchPatch) :
    (applyBatchPatch b p).experiment_id = b.experiment_id := rfl

theorem setActionTime_id (b : Batch) (a : String) (ts : Nat) :
    (setActionTime b a ts).id = b.id := by
  unfold setActionTime; split_ifs <;> rfl

theorem setActionTime_experiment_id (b : Batch) (a : String) (ts : Nat) :
    (setActionTime b a ts).experiment_id = b.experiment_id := by
  unfold setActionTime; split_ifs <;> rfl

theorem actionTime_applyBatchPatch (b : Batch) (p : BatchPatch) (a : String) :
    actionTime (applyBatchPatch b p) a = actionTime b a := by
  unfold actionTime; split_ifs <;> rfl

set_option maxHeartbeats 1000000 in
theorem actionTime_setStatus (b : Batch) (st : String) (a : String) :
    actionTime { b with status := st } a = actionTime b a := by
  unfold actionTime; split_ifs <;> rfl

theorem actionTime_setActionTime (b : Batch) (a : String) (ts : Nat)
    (h : hasTimeField a = true) :
    actionTime (setActionTime b a ts) a = some ts := by
  simp only [hasTimeField, Bool.or_eq_true, beq_iff_eq] at h
  rcases h with ((((((((h | h) | h) | h) | h) | h) | h) | h) | h) <;> subst h <;> rfl

theorem updateExperiment_batches (s : Store) (eid : Nat) (f : Experiment → Experiment) :
    (updateExperiment s eid f).batches = s.batches := rfl

theorem updateBatch_experiments (s : Store) (bid : Nat) (f : Batch → Batch) :
    (updateBatch s bid f).experiments = s.experiments := rfl

theorem update_experiment_status_from_batches_batches (s : Store) (eid : Nat) :
    ((update_experiment_status_from_batches s eid).2).batches = s.batches := by
  unfold update_experiment_status_from_batches
  cases findExperiment s eid <;> rfl

theorem statusChain_eq_derive (bs : List Batch) :
    (if bs.isEmpty then "Planning"
     else if bs.all (fun b => b.status == "Completed") then "Completed"
     else if bs.any (fun b => b.status == "Setup") then "Planning"
     else if bs.any (fun b => b.status == "Incubating" || b.status == "Sampling") then "Running"
     else "Analysis") = deriveExperimentStatus (bs.map Batch.status) := by
  cases bs with
  | nil => rfl
  | cons b bs => simp [deriveExperimentStatus, List.all_map, List.any_map, Function.comp]

theorem update_experiment_status_from_batches_eq (s : Store) (eid : Nat) (e : Experiment)
    (he : findExperiment s eid = some e) :
    update_experiment_status_from_batches s eid =
      (true, updateExperiment s eid (fun e2 =>
        { e2 with status := deriveExperimentStatus ((experimentBatches s eid).map Batch.status) })) := by
  unfold update_experiment_status_from_batches
  rw [he]
  simp only [statusChain_eq_derive]

theorem loggedBatch_id (b : Batch) (a : String) (ts : Nat) (v : BatchPatch) :
    (loggedBatch b a ts v).id = b.id := by
  unfold loggedBatch
  cases statusMapping a
  · simp only []
    rw [applyBatchPatch_id, setActionTime_id]
  · simp only []
    show (applyBatchPatch (setActionTime b a ts) v).id = b.id
    rw [applyBatchPatch_id, setActionTime_id]

theorem loggedBatch_experiment_id (b : Batch) (a : String) (ts : Nat) (v : BatchPatch) :
    (loggedBatch b a ts v).experiment_id = b.experiment_id := by
  unfold loggedBatch
  cases statusMapping a
  · simp only []
    rw [applyBatchPatch_experiment_id, setActionTime_experiment_id]
  · simp only []
    show (applyBatchPatch (setActionTime b a ts) v).experiment_id = b.experiment_id
    rw [applyBatchPatch_experiment_id, setActionTime_experiment_id]

theorem loggedBatch_status (b : Batch) (a st : String) (ts : Nat) (v : BatchPatch)
    (hm : statusMapping a = some st) :
    (loggedBatch b a ts v).status = st := by
  unfold loggedBatch
  rw [hm]

theorem actionTime_loggedBatch (b : Batch) (a : String) (ts : Nat) (v : BatchPatch)
    (h : hasTimeField a = true) :
    actionTime (loggedBatch b a ts v) a = some ts := by
  unfold loggedBatch
  cases statusMapping a
  · simp only []
    rw [actionTime_applyBatchPatch, actionTime_setActionTime b a ts h]
  · simp only []
    rw [actionTime_setStatus, actionTime_applyBatchPatch, actionTime_setActionTime b a ts h]

theorem findBatch_updateBatch_const (s : Store) (bid : Nat) (b b' : Batch)
    (hb : findBatch s bid = some b) (hid : b'.id = b.id) :
    findBatch (updateBatch s bid (fun _ => b')) bid = some b' := by
  unfold findBatch at hb ⊢
  unfold updateBatch
  refine find?_updateFirst_eq _ (fun _ => b') _ b hb ?_
  have hp := List.find?_some hb
  show (b'.id == bid) = true
  rw [hid]
  simpa using hp

theorem findBatch_update_experiment_status (s : Store) (eid bid : Nat) :
    findBatch ((update_experiment_status_from_batches s eid).2) bid = findBatch s bid := by
  unfold findBatch
  rw [update_experiment_status_from_batches_batches]

theorem experimentBatches_updateExperiment (s : Store) (eid : Nat)
    (f : Experiment → Experiment) (eid' : Nat) :
    experimentBatches (updateExperiment s eid f) eid' = experimentBatches s eid' := rfl

theorem findExperiment_updateBatch (s : Store) (bid : Nat) (f : Batch → Batch) (eid : Nat) :
    findExperiment (updateBatch s bid f) eid = findExperiment s eid := rfl

theorem findExperiment_updateExperiment (s : Store) (eid : Nat)
    (f : Experiment → Experiment) (e : Experiment)
    (he : findExperiment s eid = some e) (hf : (f e).id = e.id) :
    findExperiment (updateExperiment s eid f) eid = some (f e) := by
  unfold findExperiment at he ⊢
  unfold updateExperiment
  refine find?_updateFirst_eq _ f _ e he ?_
  have hp := List.find?_some he
  show ((f e).id == eid) = true
  rw [hf]
  simpa using hp

theorem getD_getD {α : Type} (o : Option α) (v : α) :
    o.getD (o.getD v) = o.getD v := by
  cases o <;> rfl

theorem applyMPatch_batch_id (m : Measurement) (p : MPatch) :
    (applyMPatch m p).batch_id = m.batch_id := rfl

theorem applyMPatch_timepoint_id (m : Measurement) (p : MPatch) :
    (applyMPatch m p).timepoint_id = m.timepoint_id := rfl

theorem applyMPatch_applyMPatch (m : Measurement) (p : MPatch) :
    applyMPatch (applyMPatch m p) p = applyMPatch m p := by
  simp only [applyMPatch, getD_getD]

theorem updateFirst_idem {α : Type} (p : α → Bool) (f : α → α) (l : List α)
    (hpres : ∀ x, p x = true → p (f x) = true)
    (hidem : ∀ x, p x = true → f (f x) = f x) :
    updateFirst p f (updateFirst p f l) = updateFirst p f l := by
  induction l with
  | nil => rfl
  | cons x xs ih =>
    by_cases hpx : p x
    · simp [updateFirst, hpx, hpres x hpx, hidem x hpx]
    · simp [updateFirst, hpx, ih]

theorem record_measurement_eq_of_some (s : Store) (bid tid : Nat) (p : MPatch)
    (m : Measurement) (h : findMeasurement s bid tid = some m) :
    record_measurement s bid tid p =
      (true, { s with measurements := updateFirst (fun m2 => m2.batch_id == bid && m2.timepoint_id == tid) (fun m2 => applyMPatch m2 p) s.measurements }) := by
  simp only [record_measurement, h]

theorem record_measurement_eq_of_none (s : Store) (bid tid : Nat) (p : MPatch)
    (h : findMeasurement s bid tid = none) :
    record_measurement s bid tid p =
      (true, { s with
        measurements := s.measurements ++
          [applyMPatch { id := s.nextMeasurementId, batch_id := bid, timepoint_id := tid } p]
        nextMeasurementId := s.nextMeasurementId + 1 }) := by
  simp only [record_measurement, h]

theorem findMeasurement_record_of_some (s : Store) (bid tid : Nat) (p : MPatch)
    (m : Measurement) (h : findMeasurement s bid tid = some m) :
    findMeasurement ((record_measurement s bid tid p).2) bid tid =
      some (applyMPatch m p) := by
  rw [record_measurement_eq_of_some s bid tid p m h]
  unfold findMeasurement at h ⊢
  refine find?_updateFirst_eq _ _ _ m h ?_
  have hp := List.find?_some h
  simpa [applyMPatch_batch_id, applyMPatch_timepoint_id] using hp

theorem findMeasurement_record_of_none (s : Store) (bid tid : Nat) (p : MPatch)
    (h : findMeasurement s bid tid = none) :
    findMeasurement ((record_measurement s bid tid p).2) bid tid =
      some (applyMPatch { id := s.nextMeasurementId, batch_id := bid, timepoint_id := tid } p) := by
  rw [record_measurement_eq_of_none s bid tid p h]
  unfold findMeasurement at h ⊢
  rw [find?_append_of_find?_eq_none _ _ _ h]
  simp [List.find?, applyMPatch_batch_id, applyMPatch_timepoint_id]

theorem findMeasurement_mem (s : Store) (bid tid : Nat) (m : Measurement)
    (h : findMeasurement s bid tid = some m) :
    m ∈ s.measurements ∧ m.batch_id = bid ∧ m.timepoint_id = tid := by
  unfold findMeasurement at h
  have hp := List.find?_some h
  have hmem := List.mem_of_find?_eq_some h
  simp only [Bool.and_eq_true, beq_iff_eq] at hp
  exact ⟨hmem, hp.1, hp.2⟩

theorem findMeasurement_of_mem_unique (s : Store) (bid tid : Nat)
    (huniq : s.measurements.Pairwise
      (fun m1 m2 => m1.batch_id ≠ m2.batch_id ∨ m1.timepoint_id ≠ m2.timepoint_id))
    (m : Measurement) (hmem : m ∈ s.measurements)
    (hb : m.batch_id = bid) (ht : m.timepoint_id = tid) :
    findMeasurement s bid tid = some m := by
  unfold findMeasurement
  refine find?_eq_of_mem_of_unique _ _ m ?_ hmem ?_
  · intro a ha c hc hpa hpc
    by_contra hne
    have hR := huniq.forall (fun _ _ h => h.imp Ne.symm Ne.symm) ha hc hne
    simp only [Bool.and_eq_true, beq_iff_eq] at hpa hpc
    rcases hR with h | h
    · exact h (hpa.1.trans hpc.1.symm)
    · exact h (hpa.2.trans hpc.2.symm)
  · simp [hb, ht]

theorem findTimepoint_of_mem_unique (s : Store) (t : Timepoint)
    (hids : s.timepoints.Pairwise (fun a b => a.id ≠ b.id))
    (hmem : t ∈ s.timepoints) : findTimepoint s t.id = some t := by
  unfold findTimepoint
  refine find?_eq_of_mem_of_unique _ _ t ?_ hmem (by simp)
  intro a ha c hc hpa hpc
  by_contra hne
  have hR := hids.forall (fun _ _ h => h.symm) ha hc hne
  simp only [beq_iff_eq] at hpa hpc
  exact hR (hpa.trans hpc.symm)

theorem is_final_timepoint_iff (s : Store) (tid : Nat) (tp : Timepoint)
    (htp : findTimepoint s tid = some tp) :
    is_final_timepoint s tid = true ↔
      ∀ t ∈ s.timepoints, t.experiment_id = tp.experiment_id → t.order ≤ tp.order := by
  simp only [is_final_timepoint, htp, Option.isNone_iff_eq_none, List.find?_eq_none,
    Bool.and_eq_true, beq_iff_eq, decide_eq_true_eq, not_and, not_lt]

/-!
## Claim theorems
-/

/-- C1: for every experiment, `update_experiment_status_from_batches` sets
the experiment's status to a pure function of its batches' current
statuses, evaluated in the source's priority order: no batches → Planning;
else all Completed → Completed; else any Setup → Planning; else any
Incubating/Sampling → Running; otherwise Analysis.  On the listed vectors:
[Completed, Setup] ↦ Planning, [Completed, Completed] ↦ Completed,
[] ↦ Planning, [Incubating] ↦ Running. -/
theorem update_experiment_status_from_batches_spec (s : Store) (eid : Nat)
    (e : Experiment) (he : findExperiment s eid = some e) :
    (update_experiment_status_from_batches s eid).1 = true ∧
    (∃ e', findExperiment (update_experiment_status_from_batches s eid).2 eid = some e' ∧
       e'.status = deriveExperimentStatus ((experimentBatches s eid).map Batch.status)) ∧
    deriveExperimentStatus ["Completed", "Setup"] = "Planning" ∧
    deriveExperimentStatus ["Completed", "Completed"] = "Completed" ∧
    deriveExperimentStatus [] = "Planning" ∧
    deriveExperimentStatus ["Incubating"] = "Running" := by
  have heq := update_experiment_status_from_batches_eq s eid e he
  refine ⟨by rw [heq], ?_, rfl, rfl, rfl, rfl⟩
  rw [heq]
  exact ⟨_, findExperiment_updateExperiment s eid _ e he rfl, rfl⟩

/-- Witness for C1: the C1 theorem applied to the concrete `demoStore`
(one batch with status Prepared, so the experiment becomes Analysis). -/
theorem update_experiment_status_from_batches_spec_witness :
    (update_experiment_status_from_batches demoStore 1).1 = true ∧
    (∃ e', findExperiment (update_experiment_status_from_batches demoStore 1).2 1 = some e' ∧
       e'.status = deriveExperimentStatus ((experimentBatches demoStore 1).map Batch.status)) ∧
    deriveExperimentStatus ["Completed", "Setup"] = "Planning" ∧
    deriveExperimentStatus ["Completed", "Completed"] = "Completed" ∧
    deriveExperimentStatus [] = "Planning" ∧
    deriveExperimentStatus ["Incubating"] = "Running" :=
  update_experiment_status_from_batches_spec demoStore 1 demoExperiment rfl

/-- C2 counterexample: batch 1 of `demoStore` already has
`preparation_time = some 5`; re-logging the `preparation` action with
timestamp 10 overwrites the stored timestamp to `some 10` — the guard
`if hasattr(batch, f"{action_type}_time")` tests only existence of the
field, not whether it is already set, so the write is not idempotent. -/
theorem log_batch_action_overwrite_counterexample :
    (findBatch demoStore 1).map Batch.preparation_time = some (some 5) ∧
    (findBatch (log_batch_action demoStore 1 "preparation" 10 {}).2 1).map
      Batch.preparation_time = some (some 10) :=
  ⟨rfl, rfl⟩

/-- C2 (amended): for every existing batch and every action type with a
corresponding timestamp field, `log_batch_action` stamps the field with
the supplied timestamp unconditionally — overwriting any already-set
value.  Idempotence on the timestamp holds only when re-logging with an
equal timestamp; in the application it is the callers that avoid
re-offering an action whose timestamp is already set. -/
theorem log_batch_action_stamps_timestamp (s : Store) (bid : Nat) (b : Batch)
    (a : String) (ts : Nat) (values : BatchPatch)
    (hb : findBatch s bid = some b) (ha : hasTimeField a = true) :
    (log_batch_action s bid a ts values).1 = true ∧
    ∃ b', findBatch (log_batch_action s bid a ts values).2 bid = some b' ∧
      actionTime b' a = some ts := by
  have heq : log_batch_action s bid a ts values =
      (true, (update_experiment_status_from_batches
        (updateBatch s bid (fun _ => loggedBatch b a ts values))
        ((loggedBatch b a ts values).experiment_id)).2) := by
    unfold log_batch_action
    rw [hb]
  refine ⟨by rw [heq], loggedBatch b a ts values, ?_, actionTime_loggedBatch b a ts values ha⟩
  rw [heq]
  rw [findBatch_update_experiment_status]
  exact findBatch_updateBatch_const s bid b _ hb (loggedBatch_id b a ts values)

/-- Witness for C2 (amended) at `demoStore`: logging `incubation_start`
with timestamp 7 on batch 1 stamps `incubation_start_time = some 7`. -/
theorem log_batch_action_stamps_timestamp_witness :
    (log_batch_action demoStore 1 "incubation_start" 7 {}).1 = true ∧
    ∃ b', findBatch (log_batch_action demoStore 1 "incubation_start" 7 {}).2 1 = some b' ∧
      actionTime b' "incubation_start" = some 7 :=
  log_batch_action_stamps_timestamp demoStore 1 demoBatch "incubation_start" 7 {} rfl rfl

/-- C3: for every existing batch and every action type in the fixed
mapping, a successful `log_batch_action` sets the batch's status to
exactly the mapped value (regardless of the batch's previous status, so
re-logging an earlier action after a later one regresses the label), and
the parent experiment's status is recomputed from the resulting batch
statuses within the same operation. -/
theorem log_batch_action_sets_status_and_recomputes (s : Store) (bid : Nat)
    (b : Batch) (a st : String) (ts : Nat) (values : BatchPatch)
    (hb : findBatch s bid = some b) (hm : statusMapping a = some st) :
    (log_batch_action s bid a ts values).1 = true ∧
    (∃ b', findBatch (log_batch_action s bid a ts values).2 bid = some b' ∧
       b'.status = st) ∧
    (∀ e, findExperiment s b.experiment_id = some e →
       ∃ e', findExperiment (log_batch_action s bid a ts values).2 b.experiment_id = some e' ∧
         e'.status = deriveExperimentStatus
           ((experimentBatches (log_batch_action s bid a ts values).2 b.experiment_id).map
             Batch.status)) := by
  have heq : log_batch_action s bid a ts values =
      (true, (update_experiment_status_from_batches
        (updateBatch s bid (fun _ => loggedBatch b a ts values))
        ((loggedBatch b a ts values).experiment_id)).2) := by
    unfold log_batch_action
    rw [hb]
  refine ⟨by rw [heq], ⟨loggedBatch b a ts values, ?_, loggedBatch_status b a st ts values hm⟩, ?_⟩
  · rw [heq, findBatch_update_experiment_status]
    exact findBatch_updateBatch_const s bid b _ hb (loggedBatch_id b a ts values)
  · intro e he
    rw [heq]
    rw [loggedBatch_experiment_id]
    set s1 := updateBatch s bid (fun _ => loggedBatch b a ts values) with hs1
    have he1 : findExperiment s1 b.experiment_id = some e := by
      rw [hs1, findExperiment_updateBatch]
      exact he
    have husfb := update_experiment_status_from_batches_eq s1 b.experiment_id e he1
    rw [husfb]
    refine ⟨_, findExperiment_updateExperiment s1 b.experiment_id _ e he1 rfl, ?_⟩
    rw [experimentBatches_updateExperiment]

/-- Witness for C3 at `demoStore`: logging `preparation` on batch 1 sets
its status to Prepared and recomputes experiment 1's status. -/
theorem log_batch_action_sets_status_and_recomputes_witness :
    (log_batch_action demoStore 1 "preparation" 10 {}).1 = true ∧
    (∃ b', findBatch (log_batch_action demoStore 1 "preparation" 10 {}).2 1 = some b' ∧
       b'.status = "Prepared") ∧
    (∀ e, findExperiment demoStore 1 = some e →
       ∃ e', findExperiment (log_batch_action demoStore 1 "preparation" 10 {}).2 1 = some e' ∧
         e'.status = deriveExperimentStatus
           ((experimentBatches (log_batch_action demoStore 1 "preparation" 10 {}).2 1).map
             Batch.status)) :=
  log_batch_action_sets_status_and_recomputes demoStore 1 demoBatch "preparation" "Prepared"
    10 {} rfl rfl

/-- C4: `advance_to_next_timepoint` fails (returns `none`, store unchanged)
when the experiment has no current timepoint or no timepoint of the
experiment has an order above the current one; and when it succeeds, the
returned timepoint belongs to the same experiment, has the smallest order
strictly greater than the current timepoint's order (in particular never
an order ≤ the current one, never a foreign timepoint), and is set as the
experiment's new current timepoint. -/
theorem advance_to_next_timepoint_spec (s : Store) (eid : Nat) :
    (∀ e, findExperiment s eid = some e → e.current_timepoint_id = none →
       advance_to_next_timepoint s eid = (none, s)) ∧
    (∀ e ctid ct, findExperiment s eid = some e → e.current_timepoint_id = some ctid →
       findTimepoint s ctid = some ct →
       (∀ t ∈ s.timepoints, t.experiment_id = eid → t.order ≤ ct.order) →
       advance_to_next_timepoint s eid = (none, s)) ∧
    (∀ tid s', advance_to_next_timepoint s eid = (some tid, s') →
       ∃ e ctid ct nt, findExperiment s eid = some e ∧
         e.current_timepoint_id = some ctid ∧ findTimepoint s ctid = some ct ∧
         nt ∈ s.timepoints ∧ nt.id = tid ∧ nt.experiment_id = eid ∧
         ct.order < nt.order ∧
         (∀ t ∈ s.timepoints, t.experiment_id = eid → ct.order < t.order →
            nt.order ≤ t.order) ∧
         (∃ e', findExperiment s' eid = some e' ∧ e'.current_timepoint_id = some tid)) := by
  refine ⟨?_, ?_, ?_⟩
  · intro e he hc
    simp only [advance_to_next_timepoint, he, hc]
  · intro e ctid ct he hc hct hmax
    have hfil : s.timepoints.filter (fun t => t.experiment_id == eid && ct.order < t.order) = [] := by
      rw [List.filter_eq_nil_iff]
      intro t ht
      simp only [Bool.and_eq_true, beq_iff_eq, decide_eq_true_eq, not_and]
      intro hexp
      exact not_lt.mpr (hmax t ht hexp)
    simp only [advance_to_next_timepoint, he, hc, hct, hfil, firstByOrder]
  · intro tid s' h
    cases hfe : findExperiment s eid with
    | none =>
      simp only [advance_to_next_timepoint, hfe] at h
      exact absurd (congrArg Prod.fst h) (by simp)
    | some e =>
      cases hc : e.current_timepoint_id with
      | none =>
        simp only [advance_to_next_timepoint, hfe, hc] at h
        exact absurd (congrArg Prod.fst h) (by simp)
      | some ctid =>
        cases hct : findTimepoint s ctid with
        | none =>
          simp only [advance_to_next_timepoint, hfe, hc, hct] at h
          exact absurd (congrArg Prod.fst h) (by simp)
        | some ct =>
          cases hfb : firstByOrder (s.timepoints.filter
              (fun t => t.experiment_id == eid && ct.order < t.order)) with
          | none =>
            simp only [advance_to_next_timepoint, hfe, hc, hct, hfb] at h
            exact absurd (congrArg Prod.fst h) (by simp)
          | some nt =>
            simp only [advance_to_next_timepoint, hfe, hc, hct, hfb] at h
            have hid : nt.id = tid := congrArg Prod.fst h |> Option.some.inj
            have hs' : s' = updateExperiment s eid
                (fun e2 => { e2 with current_timepoint_id := some nt.id }) :=
              (congrArg Prod.snd h).symm
            have hmem := firstByOrder_mem _ nt hfb
            have hmem' := List.mem_filter.mp hmem
            have hprop := hmem'.2
            simp only [Bool.and_eq_true, beq_iff_eq, decide_eq_true_eq] at hprop
            refine ⟨e, ctid, ct, nt, rfl, hc, hct, hmem'.1, hid, hprop.1, hprop.2, ?_, ?_⟩
            · intro t ht hexp hgt
              refine firstByOrder_le _ nt hfb t ?_
              rw [List.mem_filter]
              refine ⟨ht, ?_⟩
              simp only [Bool.and_eq_true, beq_iff_eq, decide_eq_true_eq]
              exact ⟨hexp, hgt⟩
            · rw [hs', ← hid]
              exact ⟨_, findExperiment_updateExperiment s eid _ e hfe rfl, rfl⟩

/-- C5: `record_measurement` is a field-level patch: re-running the same
call is the identity on the store (field-level idempotence, including the
allocated row id); on an existing row it merges exactly the supplied
fields (absent fields untouched, explicit nulls clear); on a missing row
it creates one seeded from the column defaults plus only the supplied
fields; and writing field A then field B leaves both set. -/
theorem record_measurement_patch_spec :
    (∀ (s : Store) (bid tid : Nat) (p : MPatch),
       record_measurement ((record_measurement s bid tid p).2) bid tid p =
         (true, (record_measurement s bid tid p).2)) ∧
    (∀ (s : Store) (bid tid : Nat) (p : MPatch) (m : Measurement),
       findMeasurement s bid tid = some m →
       findMeasurement ((record_measurement s bid tid p).2) bid tid = some (applyMPatch m p)) ∧
    (∀ (s : Store) (bid tid : Nat) (p : MPatch),
       findMeasurement s bid tid = none →
       findMeasurement ((record_measurement s bid tid p).2) bid tid =
         some (applyMPatch { id := s.nextMeasurementId, batch_id := bid, timepoint_id := tid } p)) ∧
    (∀ (s : Store) (bid tid : Nat) (v : Int) (w : String),
       ∃ m, findMeasurement ((record_measurement ((record_measurement s bid tid { ph_value := some (some v) }).2) bid tid { hplc_results := some (some w) }).2) bid tid = some m ∧
         m.ph_value = some v ∧ m.hplc_results = some w) ∧
    (∀ (m : Measurement) (p : MPatch), p.ph_value = none →
       (applyMPatch m p).ph_value = m.ph_value) ∧
    (∀ m : Measurement, (applyMPatch m { ph_value := some none }).ph_value = none) := by
  refine ⟨?_, findMeasurement_record_of_some, findMeasurement_record_of_none, ?_, ?_, fun m => rfl⟩
  · intro s bid tid p
    cases h : findMeasurement s bid tid with
    | some m =>
      have hs1 := record_measurement_eq_of_some s bid tid p m h
      have h1 := findMeasurement_record_of_some s bid tid p m h
      have hs2 := record_measurement_eq_of_some ((record_measurement s bid tid p).2)
        bid tid p _ h1
      rw [hs2, hs1]
      show (true, ({ s with measurements := updateFirst (fun m2 => m2.batch_id == bid && m2.timepoint_id == tid) (fun m2 => applyMPatch m2 p) (updateFirst (fun m2 => m2.batch_id == bid && m2.timepoint_id == tid) (fun m2 => applyMPatch m2 p) s.measurements) } : Store)) =
        (true, ({ s with measurements := updateFirst (fun m2 => m2.batch_id == bid && m2.timepoint_id == tid) (fun m2 => applyMPatch m2 p) s.measurements } : Store))
      rw [updateFirst_idem (fun m2 : Measurement => m2.batch_id == bid && m2.timepoint_id == tid)
        (fun m2 => applyMPatch m2 p) s.measurements (fun x hx => hx)
        (fun x _ => applyMPatch_applyMPatch x p)]
    | none =>
      have hs1 := record_measurement_eq_of_none s bid tid p h
      have h1 := findMeasurement_record_of_none s bid tid p h
      have hs2 := record_measurement_eq_of_some ((record_measurement s bid tid p).2)
        bid tid p _ h1
      rw [hs2, hs1]
      show (true, ({ s with measurements := updateFirst (fun m2 => m2.batch_id == bid && m2.timepoint_id == tid) (fun m2 => applyMPatch m2 p) (s.measurements ++ [applyMPatch { id := s.nextMeasurementId, batch_id := bid, timepoint_id := tid } p]), nextMeasurementId := s.nextMeasurementId + 1 } : Store)) =
        (true, ({ s with measurements := s.measurements ++ [applyMPatch { id := s.nextMeasurementId, batch_id := bid, timepoint_id := tid } p], nextMeasurementId := s.nextMeasurementId + 1 } : Store))
      have h' : s.measurements.find? (fun m2 => m2.batch_id == bid && m2.timepoint_id == tid) = none := h
      rw [updateFirst_append_of_find?_eq_none _ _ _ _ h']
      have hq : (fun m2 : Measurement => m2.batch_id == bid && m2.timepoint_id == tid)
          (applyMPatch { id := s.nextMeasurementId, batch_id := bid, timepoint_id := tid } p) = true := by
        simp [applyMPatch_batch_id, applyMPatch_timepoint_id]
      rw [show updateFirst (fun m2 : Measurement => m2.batch_id == bid && m2.timepoint_id == tid) (fun m2 => applyMPatch m2 p) [applyMPatch { id := s.nextMeasurementId, batch_id := bid, timepoint_id := tid } p] = [applyMPatch (applyMPatch { id := s.nextMeasurementId, batch_id := bid, timepoint_id := tid } p) p] from by simp [updateFirst, hq]]
      rw [applyMPatch_applyMPatch]
  · intro s bid tid v w
    cases h : findMeasurement s bid tid with
    | some m =>
      have h1 := findMeasurement_record_of_some s bid tid { ph_value := some (some v) } m h
      have h2 := findMeasurement_record_of_some ((record_measurement s bid tid { ph_value := some (some v) }).2) bid tid { hplc_results := some (some w) } _ h1
      exact ⟨_, h2, rfl, rfl⟩
    | none =>
      have h1 := findMeasurement_record_of_none s bid tid { ph_value := some (some v) } h
      have h2 := findMeasurement_record_of_some ((record_measurement s bid tid { ph_value := some (some v) }).2) bid tid { hplc_results := some (some w) } _ h1
      exact ⟨_, h2, rfl, rfl⟩
  · intro m p hp
    show p.ph_value.getD m.ph_value = m.ph_value
    rw [hp]
    rfl

/-- Witness for C5 at `demoStore`: recording pH 3 and then HPLC text "x"
for batch 1 at timepoint 1 yields a row with both fields set. -/
theorem record_measurement_patch_spec_witness :
    ∃ m, findMeasurement ((record_measurement ((record_measurement demoStore 1 1 { ph_value := some (some 3) }).2) 1 1 { hplc_results := some (some "x") }).2) 1 1 = some m ∧
      m.ph_value = some 3 ∧ m.hplc_results = some "x" :=
  record_measurement_patch_spec.2.2.2.1 demoStore 1 1 3 "x"

/-- Witness for C4: at `demoStore` the current timepoint is t0 (order 1),
so advancing returns t4 (id 2, order 2) and sets it as current; at
`demoStoreNoTimepoints` the experiment has no current timepoint, so
advancing fails with `none` and an unchanged store. -/
theorem advance_to_next_timepoint_spec_witness :
    (∃ e ctid ct nt, findExperiment demoStore 1 = some e ∧
      e.current_timepoint_id = some ctid ∧ findTimepoint demoStore ctid = some ct ∧
      nt ∈ demoStore.timepoints ∧ nt.id = 2 ∧ nt.experiment_id = 1 ∧
      ct.order < nt.order ∧
      (∀ t ∈ demoStore.timepoints, t.experiment_id = 1 → ct.order < t.order →
         nt.order ≤ t.order) ∧
      (∃ e', findExperiment (advance_to_next_timepoint demoStore 1).2 1 = some e' ∧
         e'.current_timepoint_id = some 2)) ∧
    advance_to_next_timepoint demoStoreNoTimepoints 1 = (none, demoStoreNoTimepoints) :=
  ⟨(advance_to_next_timepoint_spec demoStore 1).2.2 2 (advance_to_next_timepoint demoStore 1).2 rfl,
   (advance_to_next_timepoint_spec demoStoreNoTimepoints 1).1
     { demoExperiment with current_timepoint_id := none } rfl rfl⟩

/-- C6: for every existing timepoint (in a store where (batch, timepoint)
pairs identify at most one measurement row, the invariant the upsert
operations maintain), `is_timepoint_completed` is true iff the timepoint's
experiment has at least one batch and every batch of that experiment has a
measurement row for this timepoint with `completed = true`; with zero
batches it is always false. -/
theorem is_timepoint_completed_iff (s : Store) (tid : Nat) (tp : Timepoint)
    (htp : findTimepoint s tid = some tp)
    (huniq : s.measurements.Pairwise
      (fun m1 m2 => m1.batch_id ≠ m2.batch_id ∨ m1.timepoint_id ≠ m2.timepoint_id)) :
    (is_timepoint_completed s tid = true ↔
      (experimentBatches s tp.experiment_id ≠ [] ∧
       ∀ b ∈ experimentBatches s tp.experiment_id,
         ∃ m ∈ s.measurements, m.batch_id = b.id ∧ m.timepoint_id = tid ∧
           m.completed = true)) ∧
    (experimentBatches s tp.experiment_id = [] → is_timepoint_completed s tid = false) := by
  refine ⟨?_, fun hL => by simp [is_timepoint_completed, htp, hL]⟩
  by_cases hL : experimentBatches s tp.experiment_id = []
  · simp [is_timepoint_completed, htp, hL]
  · have hL' : (experimentBatches s tp.experiment_id).isEmpty = false := by
      simpa [List.isEmpty_iff] using hL
    simp only [is_timepoint_completed, htp, hL', Bool.false_eq_true, if_false,
      List.all_eq_true]
    constructor
    · intro hall
      refine ⟨hL, fun b hb => ?_⟩
      have hbc := hall b hb
      cases hm : findMeasurement s b.id tid with
      | none => rw [hm] at hbc; cases hbc
      | some m =>
        rw [hm] at hbc
        obtain ⟨hmem, hbid, htid⟩ := findMeasurement_mem s b.id tid m hm
        exact ⟨m, hmem, hbid, htid, hbc⟩
    · rintro ⟨-, hex⟩ b hb
      obtain ⟨m, hmem, hbid, htid, hc⟩ := hex b hb
      rw [findMeasurement_of_mem_unique s b.id tid huniq m hmem hbid htid]
      exact hc

/-- Witness for C6 at `demoStoreMeasured` (timepoint t0, one batch with a
completed measurement row). -/
theorem is_timepoint_completed_iff_witness :
    (is_timepoint_completed demoStoreMeasured 1 = true ↔
      (experimentBatches demoStoreMeasured demoT0.experiment_id ≠ [] ∧
       ∀ b ∈ experimentBatches demoStoreMeasured demoT0.experiment_id,
         ∃ m ∈ demoStoreMeasured.measurements, m.batch_id = b.id ∧ m.timepoint_id = 1 ∧
           m.completed = true)) ∧
    (experimentBatches demoStoreMeasured demoT0.experiment_id = [] →
      is_timepoint_completed demoStoreMeasured 1 = false) :=
  is_timepoint_completed_iff demoStoreMeasured 1 demoT0 rfl (by decide)

/-- C7: in every experiment whose timepoints have pairwise-distinct order
values and at least one timepoint (timepoint ids being store-wide unique,
the primary-key invariant), `is_final_timepoint` is true for exactly one
of its timepoints — the one of maximal order — and it stays true for that
timepoint after `create_custom_timepoint` inserts a new timepoint with a
smaller order. -/
theorem is_final_timepoint_unique_max (s : Store) (eid : Nat)
    (hids : s.timepoints.Pairwise (fun a b => a.id ≠ b.id))
    (hord : (experimentTimepoints s eid).Pairwise (fun a b => a.order ≠ b.order))
    (hne : experimentTimepoints s eid ≠ []) :
    ∃ tp ∈ experimentTimepoints s eid,
      is_final_timepoint s tp.id = true ∧
      (∀ u ∈ experimentTimepoints s eid, u.order ≤ tp.order) ∧
      (∀ u ∈ experimentTimepoints s eid, is_final_timepoint s u.id = true → u = tp) ∧
      (∀ (nm : String) (hours : Int) (descr : Option String) (o : Int), o < tp.order →
        is_final_timepoint ((create_custom_timepoint s eid nm hours descr (some o)).2)
          tp.id = true) := by
  obtain ⟨tp, htpmem, hmax⟩ := exists_max_order _ hne
  have htpmem' := List.mem_filter.mp htpmem
  have htps : tp ∈ s.timepoints := htpmem'.1
  have htpexp : tp.experiment_id = eid := by simpa using htpmem'.2
  have hfind : findTimepoint s tp.id = some tp := findTimepoint_of_mem_unique s tp hids htps
  have hmax' : ∀ t ∈ s.timepoints, t.experiment_id = tp.experiment_id → t.order ≤ tp.order := by
    intro t ht hexp
    exact hmax t (List.mem_filter.mpr ⟨ht, by simp [hexp, htpexp]⟩)
  have hfinal : is_final_timepoint s tp.id = true :=
    (is_final_timepoint_iff s tp.id tp hfind).mpr hmax'
  refine ⟨tp, htpmem, hfinal, hmax, ?_, ?_⟩
  · intro u humem hufinal
    have humem' := List.mem_filter.mp humem
    have huexp : u.experiment_id = eid := by simpa using humem'.2
    have hufind : findTimepoint s u.id = some u :=
      findTimepoint_of_mem_unique s u hids humem'.1
    have hule := (is_final_timepoint_iff s u.id u hufind).mp hufinal
    have h1 : tp.order ≤ u.order := hule tp htps (htpexp.trans huexp.symm)
    have h2 : u.order ≤ tp.order := hmax u humem
    by_contra hne'
    exact hord.forall (fun _ _ h => h.symm) humem htpmem hne' (le_antisymm h2 h1)
  · intro nm hours descr o ho
    have hs' : (create_custom_timepoint s eid nm hours descr (some o)).2 =
        { s with
          timepoints := s.timepoints ++
            [{ id := s.nextTimepointId, experiment_id := eid, name := nm, hours := hours,
               description := descr, order := o }]
          nextTimepointId := s.nextTimepointId + 1 } := rfl
    rw [hs']
    have hfind' : findTimepoint
        ({ s with
           timepoints := s.timepoints ++
             [{ id := s.nextTimepointId, experiment_id := eid, name := nm, hours := hours,
                description := descr, order := o }]
           nextTimepointId := s.nextTimepointId + 1 } : Store) tp.id = some tp := by
      unfold findTimepoint at hfind ⊢
      exact find?_append_of_find?_eq_some _ _ _ tp hfind
    rw [is_final_timepoint_iff _ tp.id tp hfind']
    intro t ht hexp
    rcases List.mem_append.mp ht with h | h
    · exact hmax' t h hexp
    · have ht' := List.mem_singleton.mp h
      subst ht'
      exact le_of_lt ho

/-- Witness for C7 at `demoStore` (timepoints t0 ≺ t4, distinct ids and
orders). -/
theorem is_final_timepoint_unique_max_witness :
    ∃ tp ∈ experimentTimepoints demoStore 1,
      is_final_timepoint demoStore tp.id = true ∧
      (∀ u ∈ experimentTimepoints demoStore 1, u.order ≤ tp.order) ∧
      (∀ u ∈ experimentTimepoints demoStore 1, is_final_timepoint demoStore u.id = true → u = tp) ∧
      (∀ (nm : String) (hours : Int) (descr : Option String) (o : Int), o < tp.order →
        is_final_timepoint ((create_custom_timepoint demoStore 1 nm hours descr (some o)).2)
          tp.id = true) :=
  is_final_timepoint_unique_max demoStore 1 (by decide) (by decide) (by decide)

/-- C8: `delete_timepoint` fails with the "timepoint in use" outcome when
the timepoint is any experiment's current timepoint, fails with the "has
measurements" outcome when any measurement references it, leaving the
store unchanged in both failure cases; otherwise it removes exactly that
timepoint row, with no re-sequencing — every other row (and every
remaining timepoint's `order`) is untouched. -/
theorem delete_timepoint_spec (s : Store) (tid : Nat) :
    ((∃ e ∈ s.experiments, e.current_timepoint_id = some tid) →
       delete_timepoint s tid = (DeleteResult.inUse, s)) ∧
    ((∀ e ∈ s.experiments, e.current_timepoint_id ≠ some tid) →
     (∃ m ∈ s.measurements, m.timepoint_id = tid) →
       delete_timepoint s tid = (DeleteResult.hasMeasurements, s)) ∧
    ((∀ e ∈ s.experiments, e.current_timepoint_id ≠ some tid) →
     (∀ m ∈ s.measurements, m.timepoint_id ≠ tid) →
     ∀ tp, findTimepoint s tid = some tp →
       delete_timepoint s tid =
         (DeleteResult.deleted,
          { s with timepoints := s.timepoints.filter (fun t => !(t.id == tid)) })) := by
  refine ⟨?_, ?_, ?_⟩
  · rintro ⟨e, he, hc⟩
    have hany : s.experiments.any (fun e => e.current_timepoint_id == some tid) = true :=
      List.any_eq_true.mpr ⟨e, he, by simp [hc]⟩
    simp [delete_timepoint, hany]
  · intro hno hex
    have h1 : s.experiments.any (fun e => e.current_timepoint_id == some tid) = false := by
      rw [List.any_eq_false]
      intro e he
      simpa using hno e he
    have h2 : s.measurements.any (fun m => m.timepoint_id == tid) = true := by
      obtain ⟨m, hm, ht⟩ := hex
      exact List.any_eq_true.mpr ⟨m, hm, by simp [ht]⟩
    simp [delete_timepoint, h1, h2]
  · intro hno hnom tp htp
    have h1 : s.experiments.any (fun e => e.current_timepoint_id == some tid) = false := by
      rw [List.any_eq_false]
      intro e he
      simpa using hno e he
    have h2 : s.measurements.any (fun m => m.timepoint_id == tid) = false := by
      rw [List.any_eq_false]
      intro m hm
      simpa using hnom m hm
    simp [delete_timepoint, h1, h2, htp]

/-- Witness for C8 at `demoStore`: timepoint 1 (t0) is the experiment's
current timepoint, so deleting it fails with the in-use outcome and the
store untouched; timepoint 2 (t4) is not current and has no measurements,
so deleting it removes exactly that row. -/
theorem delete_timepoint_spec_witness :
    delete_timepoint demoStore 1 = (DeleteResult.inUse, demoStore) ∧
    delete_timepoint demoStore 2 =
      (DeleteResult.deleted,
       { demoStore with timepoints := demoStore.timepoints.filter (fun t => !(t.id == 2)) }) :=
  ⟨(delete_timepoint_spec demoStore 1).1 (by decide),
   (delete_timepoint_spec demoStore 2).2.2 (by decide) (by decide) demoT4 rfl⟩

/-- C9: `create_default_timepoints` reports success without touching the
store when the experiment already has timepoints; otherwise it creates
exactly the four timepoints t0/t4/t7/t11 with hours 0/4/7/11 and order
1..4 for the experiment and points the experiment's current timepoint at
the order-1 entry t0; and a second run after a successful first run
leaves the store identical. -/
theorem create_default_timepoints_spec (s : Store) (eid : Nat) (e : Experiment)
    (he : findExperiment s eid = some e) :
    (experimentTimepoints s eid ≠ [] → create_default_timepoints s eid = (true, s)) ∧
    (experimentTimepoints s eid = [] →
       (create_default_timepoints s eid).1 = true ∧
       (experimentTimepoints (create_default_timepoints s eid).2 eid).map
           (fun t => (t.name, t.hours, t.order)) =
         [("t0", (0 : Int), (1 : Int)), ("t4", 4, 2), ("t7", 7, 3), ("t11", 11, 4)] ∧
       (∃ e', findExperiment (create_default_timepoints s eid).2 eid = some e' ∧
          ∃ t0 ∈ experimentTimepoints (create_default_timepoints s eid).2 eid,
            e'.current_timepoint_id = some t0.id ∧ t0.name = "t0" ∧ t0.order = 1)) ∧
    create_default_timepoints (create_default_timepoints s eid).2 eid =
      (true, (create_default_timepoints s eid).2) := by
  have hfirst : ∀ s0 : Store, experimentTimepoints s0 eid ≠ [] →
      create_default_timepoints s0 eid = (true, s0) := by
    intro s0 h
    have hE : (experimentTimepoints s0 eid).isEmpty = false := by
      simpa [List.isEmpty_iff] using h
    simp [create_default_timepoints, hE]
  refine ⟨hfirst s, ?_, ?_⟩
  · intro h
    have hE : (experimentTimepoints s eid).isEmpty = true := by
      simp [h]
    have hpref : ∀ t ∈ s.timepoints, (t.experiment_id == eid) = false := by
      intro t ht
      have := List.filter_eq_nil_iff.mp h t ht
      simpa using this
    have hfindpre : s.timepoints.find?
        (fun t => t.experiment_id == eid && t.name == "t0") = none := by
      rw [List.find?_eq_none]
      intro t ht
      simp [hpref t ht]
    have hfe1 : findExperiment
        { s with
          timepoints := s.timepoints ++
            [defaultTimepoint s.nextTimepointId eid "t0" 0 "Initial measurements" 1,
             defaultTimepoint (s.nextTimepointId + 1) eid "t4" 4 "4-hour measurements" 2,
             defaultTimepoint (s.nextTimepointId + 2) eid "t7" 7 "7-hour measurements" 3,
             defaultTimepoint (s.nextTimepointId + 3) eid "t11" 11 "Final measurements" 4]
          nextTimepointId := s.nextTimepointId + 4 } eid = some e := he
    have hfindT0 : (s.timepoints ++
        [defaultTimepoint s.nextTimepointId eid "t0" 0 "Initial measurements" 1,
         defaultTimepoint (s.nextTimepointId + 1) eid "t4" 4 "4-hour measurements" 2,
         defaultTimepoint (s.nextTimepointId + 2) eid "t7" 7 "7-hour measurements" 3,
         defaultTimepoint (s.nextTimepointId + 3) eid "t11" 11 "Final measurements" 4]).find?
          (fun t => t.experiment_id == eid && t.name == "t0") =
        some (defaultTimepoint s.nextTimepointId eid "t0" 0 "Initial measurements" 1) := by
      rw [find?_append_of_find?_eq_none _ _ _ hfindpre]
      simp [List.find?, defaultTimepoint]
    have heq : create_default_timepoints s eid =
        (true, updateExperiment
          { s with
            timepoints := s.timepoints ++
              [defaultTimepoint s.nextTimepointId eid "t0" 0 "Initial measurements" 1,
               defaultTimepoint (s.nextTimepointId + 1) eid "t4" 4 "4-hour measurements" 2,
               defaultTimepoint (s.nextTimepointId + 2) eid "t7" 7 "7-hour measurements" 3,
               defaultTimepoint (s.nextTimepointId + 3) eid "t11" 11 "Final measurements" 4]
            nextTimepointId := s.nextTimepointId + 4 } eid
          (fun e2 => { e2 with
            current_timepoint_id :=
              some (defaultTimepoint s.nextTimepointId eid "t0" 0 "Initial measurements" 1).id })) := by
      simp only [create_default_timepoints, hE, Bool.not_true, Bool.false_eq_true, if_false,
        hfe1, hfindT0]
    refine ⟨by rw [heq], ?_, ?_⟩
    · rw [heq]
      show ((s.timepoints ++
          [defaultTimepoint s.nextTimepointId eid "t0" 0 "Initial measurements" 1,
           defaultTimepoint (s.nextTimepointId + 1) eid "t4" 4 "4-hour measurements" 2,
           defaultTimepoint (s.nextTimepointId + 2) eid "t7" 7 "7-hour measurements" 3,
           defaultTimepoint (s.nextTimepointId + 3) eid "t11" 11 "Final measurements" 4]).filter
            (fun t => t.experiment_id == eid)).map (fun t => (t.name, t.hours, t.order)) = _
      rw [List.filter_append]
      rw [show s.timepoints.filter (fun t => t.experiment_id == eid) = [] from h]
      simp [defaultTimepoint]
    · rw [heq]
      refine ⟨_, findExperiment_updateExperiment _ eid _ e hfe1 rfl, ?_⟩
      refine ⟨defaultTimepoint s.nextTimepointId eid "t0" 0 "Initial measurements" 1, ?_, rfl, rfl, rfl⟩
      show defaultTimepoint s.nextTimepointId eid "t0" 0 "Initial measurements" 1 ∈
        (s.timepoints ++
          [defaultTimepoint s.nextTimepointId eid "t0" 0 "Initial measurements" 1,
           defaultTimepoint (s.nextTimepointId + 1) eid "t4" 4 "4-hour measurements" 2,
           defaultTimepoint (s.nextTimepointId + 2) eid "t7" 7 "7-hour measurements" 3,
           defaultTimepoint (s.nextTimepointId + 3) eid "t11" 11 "Final measurements" 4]).filter
            (fun t => t.experiment_id == eid)
      rw [List.mem_filter]
      refine ⟨List.mem_append_right _ ?_, by simp [defaultTimepoint]⟩
      simp
  · by_cases h : experimentTimepoints s eid = []
    · have hE : (experimentTimepoints s eid).isEmpty = true := by
        simp [h]
      have hpref : ∀ t ∈ s.timepoints, (t.experiment_id == eid) = false := by
        intro t ht
        have := List.filter_eq_nil_iff.mp h t ht
        simpa using this
      have hafter : experimentTimepoints (create_default_timepoints s eid).2 eid ≠ [] := by
        intro hcontra
        have hmem : defaultTimepoint s.nextTimepointId eid "t0" 0 "Initial measurements" 1 ∈
            experimentTimepoints (create_default_timepoints s eid).2 eid := by
          have hfe1 : findExperiment
              { s with
                timepoints := s.timepoints ++
                  [defaultTimepoint s.nextTimepointId eid "t0" 0 "Initial measurements" 1,
                   defaultTimepoint (s.nextTimepointId + 1) eid "t4" 4 "4-hour measurements" 2,
                   defaultTimepoint (s.nextTimepointId + 2) eid "t7" 7 "7-hour measurements" 3,
                   defaultTimepoint (s.nextTimepointId + 3) eid "t11" 11 "Final measurements" 4]
                nextTimepointId := s.nextTimepointId + 4 } eid = some e := he
          have hfindpre : s.timepoints.find?
              (fun t => t.experiment_id == eid && t.name == "t0") = none := by
            rw [List.find?_eq_none]
            intro t ht
            simp [hpref t ht]
          have hfindT0 : (s.timepoints ++
              [defaultTimepoint s.nextTimepointId eid "t0" 0 "Initial measurements" 1,
               defaultTimepoint (s.nextTimepointId + 1) eid "t4" 4 "4-hour measurements" 2,
               defaultTimepoint (s.nextTimepointId + 2) eid "t7" 7 "7-hour measurements" 3,
               defaultTimepoint (s.nextTimepointId + 3) eid "t11" 11 "Final measurements" 4]).find?
                (fun t => t.experiment_id == eid && t.name == "t0") =
              some (defaultTimepoint s.nextTimepointId eid "t0" 0 "Initial measurements" 1) := by
            rw [find?_append_of_find?_eq_none _ _ _ hfindpre]
            simp [List.find?, defaultTimepoint]
          have heq : create_default_timepoints s eid =
              (true, updateExperiment
                { s with
                  timepoints := s.timepoints ++
                    [defaultTimepoint s.nextTimepointId eid "t0" 0 "Initial measurements" 1,
                     defaultTimepoint (s.nextTimepointId + 1) eid "t4" 4 "4-hour measurements" 2,
                     defaultTimepoint (s.nextTimepointId + 2) eid "t7" 7 "7-hour measurements" 3,
                     defaultTimepoint (s.nextTimepointId + 3) eid "t11" 11 "Final measurements" 4]
                  nextTimepointId := s.nextTimepointId + 4 } eid
                (fun e2 => { e2 with
                  current_timepoint_id :=
                    some (defaultTimepoint s.nextTimepointId eid "t0" 0 "Initial measurements" 1).id })) := by
            simp only [create_default_timepoints, hE, Bool.not_true, Bool.false_eq_true, if_false,
              hfe1, hfindT0]
          rw [heq]
          show defaultTimepoint s.nextTimepointId eid "t0" 0 "Initial measurements" 1 ∈
            (s.timepoints ++
              [defaultTimepoint s.nextTimepointId eid "t0" 0 "Initial measurements" 1,
               defaultTimepoint (s.nextTimepointId + 1) eid "t4" 4 "4-hour measurements" 2,
               defaultTimepoint (s.nextTimepointId + 2) eid "t7" 7 "7-hour measurements" 3,
               defaultTimepoint (s.nextTimepointId + 3) eid "t11" 11 "Final measurements" 4]).filter
                (fun t => t.experiment_id == eid)
          rw [List.mem_filter]
          refine ⟨List.mem_append_right _ ?_, by simp [defaultTimepoint]⟩
          simp
        rw [hcontra] at hmem
        cases hmem
      exact hfirst (create_default_timepoints s eid).2 hafter
    · have h1 := hfirst s h
      rw [h1]
      exact hfirst s h

/-- Witness for C9 at `demoStoreNoTimepoints`. -/
theorem create_default_timepoints_spec_witness :
    (experimentTimepoints demoStoreNoTimepoints 1 ≠ [] →
       create_default_timepoints demoStoreNoTimepoints 1 = (true, demoStoreNoTimepoints)) ∧
    (experimentTimepoints demoStoreNoTimepoints 1 = [] →
       (create_default_timepoints demoStoreNoTimepoints 1).1 = true ∧
       (experimentTimepoints (create_default_timepoints demoStoreNoTimepoints 1).2 1).map
           (fun t => (t.name, t.hours, t.order)) =
         [("t0", (0 : Int), (1 : Int)), ("t4", 4, 2), ("t7", 7, 3), ("t11", 11, 4)] ∧
       (∃ e', findExperiment (create_default_timepoints demoStoreNoTimepoints 1).2 1 = some e' ∧
          ∃ t0 ∈ experimentTimepoints (create_default_timepoints demoStoreNoTimepoints 1).2 1,
            e'.current_timepoint_id = some t0.id ∧ t0.name = "t0" ∧ t0.order = 1)) ∧
    create_default_timepoints (create_default_timepoints demoStoreNoTimepoints 1).2 1 =
      (true, (create_default_timepoints demoStoreNoTimepoints 1).2) :=
  create_default_timepoints_spec demoStoreNoTimepoints 1
    { demoExperiment with current_timepoint_id := none } rfl

/-- C10: `create_custom_timepoint` only appends one new timepoint row: the
experiments (in particular every current-timepoint pointer and status),
batches and measurements are untouched, and every existing timepoint row
is left exactly as it was. -/
theorem create_custom_timepoint_frame (s : Store) (eid : Nat) (nm : String)
    (hours : Int) (descr : Option String) (ord? : Option Int) :
    ∃ tp : Timepoint,
      (create_custom_timepoint s eid nm hours descr ord?).1 = some tp.id ∧
      (create_custom_timepoint s eid nm hours descr ord?).2 =
        { s with timepoints := s.timepoints ++ [tp], nextTimepointId := s.nextTimepointId + 1 } ∧
      tp.experiment_id = eid ∧ tp.name = nm ∧
      (create_custom_timepoint s eid nm hours descr ord?).2.experiments = s.experiments ∧
      (create_custom_timepoint s eid nm hours descr ord?).2.batches = s.batches ∧
      (create_custom_timepoint s eid nm hours descr ord?).2.measurements = s.measurements := by
  refine ⟨{ id := s.nextTimepointId, experiment_id := eid, name := nm, hours := hours,
            description := descr,
            order := match ord? with
              | some o => o
              | none =>
                match maxOrder (experimentTimepoints s eid) with
                | none => 1
                | some m => m + 1 },
    rfl, rfl, rfl, rfl, rfl, rfl, rfl⟩

end KombuchaELN
